import Mathlib

/-!
Verification of the release-it GitHub Action wrapper (`src/index.js`, first
revision) against its natural-language specification.

The development shallowly embeds:
  * the JSON configuration values and the JavaScript object-spread semantics
    used by `releaseItConfig` (`{git: {...defaults, ...config.git}, ..., ...config}`),
  * the configuration seeder `ensureConfigFile` (candidate-path derivation from
    `HOME`, `GITHUB_ACTION_PATH` and the current working directory, plus the
    per-candidate mkdir/write loop with its per-candidate try/catch),
  * the orchestrator `run` (required token check, override JSON parsing with
    warning on failure, effective-configuration assembly, invocation of the
    release library, output mapping, and top-level failure handling).

Filesystem paths are modelled as lists of components (`path.join` is list
append, `path.dirname` is `List.dropLast`).  Filesystem errors raised by
`mkdirSync`/`writeFileSync` are modelled by an oracle saying, per path, whether
the operation throws.  The external collaborators `JSON.parse` and the
release-it library itself are parameters of the run environment.
-/

namespace ReleaseItAction

/-- JSON values, as produced by `JSON.parse` and consumed by release-it. -/
inductive JValue where
  | null
  | bool (b : Bool)
  | str (s : String)
  | num (n : Int)
  | arr (elems : List JValue)
  | obj (fields : List (String × JValue))

/-- A JavaScript object: an ordered list of key/value fields. -/
abbrev JObj := List (String × JValue)

/-- Property lookup on an object.  A later binding of the same key shadows an
earlier one, matching JavaScript semantics for duplicate keys. -/
def JObj.get : JObj → String → Option JValue
  | [], _ => none
  | kv :: rest, k =>
    match JObj.get rest k with
    | some v => some v
    | none => if kv.1 = k then some kv.2 else none

/-- Property assignment `o[k] = v`: any existing binding of `k` is replaced and
the binding is placed last.  `JObj.get` is insensitive to the position. -/
def JObj.set (o : JObj) (k : String) (v : JValue) : JObj :=
  o.filter (fun kv => kv.1 != k) ++ [(k, v)]

/-- JavaScript object spread `{...base, ...o}`: every field of `o` is assigned
onto `base`, in order. -/
def spread (base o : JObj) : JObj :=
  o.foldl (fun acc kv => JObj.set acc kv.1 kv.2) base

/-- `config.k` viewed as an object for a nested spread `...config.k`: a missing
key or a non-object value spreads nothing. -/
def getSection (o : JObj) (k : String) : JObj :=
  match JObj.get o k with
  | some (JValue.obj s) => s
  | _ => []

/-- Read a string-valued property. -/
def getStr (o : JObj) (k : String) : Option String :=
  match JObj.get o k with
  | some (JValue.str s) => some s
  | _ => none

/-- Read a boolean-valued property. -/
def getBool (o : JObj) (k : String) : Option Bool :=
  match JObj.get o k with
  | some (JValue.bool b) => some b
  | _ => none

/-- View a parsed JSON value as an object (a non-object parse result behaves
as an empty override in every place `run` uses it). -/
def jobjOf : JValue → JObj
  | JValue.obj fields => fields
  | _ => []

/-- Default `git` section of `releaseItConfig` (`src/index.js` lines 131-135,
before `...config.git` is spread over it). -/
def gitDefaults : JObj :=
  [("commitMessage", JValue.str "chore: release v${version}"),
   ("requireCleanWorkingDir", JValue.bool false)]

/-- Default `github` section (lines 136-140): native release disabled, token
injected from the `github-token` input. -/
def githubDefaults (githubToken : String) : JObj :=
  [("release", JValue.bool false),
   ("token", JValue.str githubToken)]

/-- Default `npm` section (lines 141-144): publishing disabled. -/
def npmDefaults : JObj :=
  [("publish", JValue.bool false)]

/-- The effective configuration object built by `run` (`src/index.js` lines
127-146): the named sections with the override's matching section spread over
each, followed by the whole parsed override spread once more at top level. -/
def releaseItConfig (githubToken : String) (dryRun : Bool) (configFilePath : String)
    (config : JObj) : JObj :=
  spread
    [("ci", JValue.bool true),
     ("dryRun", JValue.bool dryRun),
     ("configPath", JValue.str configFilePath),
     ("git", JValue.obj (spread gitDefaults (getSection config "git"))),
     ("github", JValue.obj (spread (githubDefaults githubToken) (getSection config "github"))),
     ("npm", JValue.obj (spread npmDefaults (getSection config "npm")))]
    config

/-- A filesystem state: regular files (path and contents) and directories.
Paths are lists of components. -/
structure FS where
  files : List (List String × String)
  dirs : List (List String)
  deriving DecidableEq

/-- `fs.existsSync(p)`: a file or a directory exists at `p`. -/
def FS.existsSync (fs : FS) (p : List String) : Bool :=
  fs.files.any (fun e => e.1 == p) || fs.dirs.any (fun d => d == p)

/-- Contents of the regular file at `p`, if one exists. -/
def FS.read (fs : FS) (p : List String) : Option String :=
  (fs.files.find? (fun e => e.1 == p)).map Prod.snd

/-- `fs.writeFileSync(p, c)`. -/
def FS.writeFile (fs : FS) (p : List String) (c : String) : FS :=
  { fs with files := fs.files.filter (fun e => e.1 != p) ++ [(p, c)] }

/-- All nonempty ancestors of a path, shortest first. -/
def pathAncestors (p : List String) : List (List String) :=
  (List.range p.length).map (fun i => p.take (i + 1))

/-- `fs.mkdirSync(d, {recursive: true})`: create `d` and every ancestor. -/
def FS.mkdirp (fs : FS) (d : List String) : FS :=
  { fs with dirs := fs.dirs ++ pathAncestors d }

/-- `fs.statSync(p).isDirectory()`, for paths known to exist. -/
def FS.isDir (fs : FS) (p : List String) : Bool :=
  fs.dirs.any (fun d => d == p)

/-- `fs.readdirSync(d)`: the names of the immediate children of `d`. -/
def FS.readdir (fs : FS) (d : List String) : List String :=
  (fs.dirs ++ fs.files.map Prod.fst).filterMap
    (fun q => if q.dropLast = d then q.getLast? else none)

/-- Which filesystem mutations throw (e.g. permission errors): the
environmental error behaviour of `fs.mkdirSync` and `fs.writeFileSync`. -/
structure FsOracle where
  mkdirFails : List String → Bool
  writeFails : List String → Bool

/-- The process environment consulted by the seeder. -/
structure SeederEnv where
  home : Option (List String)
  githubActionPath : Option (List String)
  cwd : List String
  deriving DecidableEq

/-- The minimal default configuration object written by the seeder
(`src/index.js` lines 7-17). -/
def minimalConfig : JObj :=
  [("git", JValue.obj [("requireCleanWorkingDir", JValue.bool false)]),
   ("github", JValue.obj [("release", JValue.bool false)]),
   ("npm", JValue.obj [("publish", JValue.bool false)])]

/-- `JSON.stringify(minimalConfig, null, 2)`: the exact payload written to
every absent candidate file. -/
def defaultConfigPayload : String :=
  "\x7b\n  \"git\": \x7b\n    \"requireCleanWorkingDir\": false\n  \x7d,\n  \"github\": \x7b\n    \"release\": false\n  \x7d,\n  \"npm\": \x7b\n    \"publish\": false\n  \x7d\n\x7d"

/-- Method 1 of the candidate derivation (`src/index.js` lines 25-57):
enumerate `<HOME>/work/_actions/<owner>/<repo>/<version>` and propose
`<version>/config/release-it.json` for every version directory found. -/
def method1Candidates (fs : FS) (home : Option (List String)) : List (List String) :=
  match home with
  | none => []
  | some h =>
    let workBase := h ++ ["work"]
    if fs.existsSync workBase then
      let actionsBase := workBase ++ ["_actions"]
      if fs.existsSync actionsBase then
        (fs.readdir actionsBase).flatMap (fun owner =>
          let ownerPath := actionsBase ++ [owner]
          if fs.isDir ownerPath then
            (fs.readdir ownerPath).flatMap (fun repo =>
              let repoPath := ownerPath ++ [repo]
              if fs.isDir repoPath then
                (fs.readdir repoPath).filterMap (fun ver =>
                  let versionPath := repoPath ++ [ver]
                  if fs.isDir versionPath then
                    some (versionPath ++ ["config", "release-it.json"])
                  else none)
              else [])
          else [])
      else []
    else []

/-- Methods 1 and 2 combined (`src/index.js` lines 25-65): the method-1 list,
then `<GITHUB_ACTION_PATH>/config/release-it.json` appended unless already
present. -/
def candidatesBeforeCwd (fs : FS) (env : SeederEnv) : List (List String) :=
  let paths1 := method1Candidates fs env.home
  match env.githubActionPath with
  | some gap =>
    let configFile := gap ++ ["config", "release-it.json"]
    if configFile ∈ paths1 then paths1 else paths1 ++ [configFile]
  | none => paths1

/-- The full candidate list (`src/index.js` lines 20-71): methods 1 and 2,
then `<cwd>/config/release-it.json` appended unless already present. -/
def candidatePaths (fs : FS) (env : SeederEnv) : List (List String) :=
  let paths2 := candidatesBeforeCwd fs env
  let cwdConfigFile := env.cwd ++ ["config", "release-it.json"]
  if cwdConfigFile ∈ paths2 then paths2 else paths2 ++ [cwdConfigFile]

/-- One iteration of the seeding loop (`src/index.js` lines 74-92): create the
parent directory if missing, then write the default payload if the file is
missing; a throw from either mutation is caught (the remainder of the try
block is skipped) and reported as a warning (`true` in the second component). -/
def ensureOne (orc : FsOracle) (fs : FS) (configFile : List String) : FS × Bool :=
  let configDir := configFile.dropLast
  if fs.existsSync configDir then
    if fs.existsSync configFile then (fs, false)
    else if orc.writeFails configFile then (fs, true)
    else (fs.writeFile configFile defaultConfigPayload, false)
  else if orc.mkdirFails configDir then (fs, true)
  else
    let fs1 := fs.mkdirp configDir
    if fs1.existsSync configFile then (fs1, false)
    else if orc.writeFails configFile then (fs1, true)
    else (fs1.writeFile configFile defaultConfigPayload, false)

/-- The seeding loop over all candidates, returning the final filesystem and
the candidates whose processing raised (and was downgraded to a warning). -/
def seedAll (orc : FsOracle) : FS → List (List String) → FS × List (List String)
  | fs, [] => (fs, [])
  | fs, configFile :: rest =>
    let r := ensureOne orc fs configFile
    let next := seedAll orc r.1 rest
    (next.1, (if r.2 then [configFile] else []) ++ next.2)

/-- Result of the seeder: the mutated filesystem, the warned candidates, and
the primary path returned to the caller. -/
structure SeedOutcome where
  fs : FS
  warned : List (List String)
  primary : List String

/-- `ensureConfigFile` (`src/index.js` lines 6-99): derive the candidate list,
seed every candidate, and return the first candidate as the primary path
(`configPaths[0] || cwdConfigFile`). -/
def ensureConfigFile (orc : FsOracle) (env : SeederEnv) (fs : FS) : SeedOutcome :=
  let paths := candidatePaths fs env
  let seeded := seedAll orc fs paths
  { fs := seeded.1, warned := seeded.2,
    primary := paths.headD (env.cwd ++ ["config", "release-it.json"]) }

/-- The result object resolved by the release library, restricted to the
fields the action reads.  `none` models an absent field. -/
structure ReleaseResult where
  version : Option String
  latestVersion : Option String
  changelog : Option String
  deriving DecidableEq

/-- JavaScript truthiness of a possibly-absent string field, as tested by
`if (result.version)`: absent and empty strings are falsy. -/
def truthy : Option String → Option String
  | some s => if s = "" then none else some s
  | none => none

/-- The outputs set from a library result (`src/index.js` lines 155-166): each
truthy field is copied to the correspondingly named output. -/
def outputsOf (result : Option ReleaseResult) : List (String × String) :=
  match result with
  | none => []
  | some r =>
    (match truthy r.version with | some v => [("version", v)] | none => []) ++
    (match truthy r.latestVersion with | some v => [("latestVersion", v)] | none => []) ++
    (match truthy r.changelog with | some v => [("changelog", v)] | none => [])

/-- Render a component path as the string handed to `configPath`. -/
def renderPath (p : List String) : String :=
  "/" ++ String.intercalate "/" p

/-- The environment of one action run: seeder environment and filesystem,
declared inputs (an empty string models an absent input, as in
`@actions/core.getInput`), and the two external collaborators `JSON.parse`
and the release library. -/
structure RunEnv where
  seeder : SeederEnv
  orc : FsOracle
  fs0 : FS
  githubToken : String
  configInput : String
  dryRunInput : String
  parseJson : String → Except String JValue
  releaseIt : JObj → Except String (Option ReleaseResult)

/-- Observable state of a finished run: final filesystem, warnings, whether
the release library was invoked (and with which configuration), the outputs
set, and the failure message if the run was marked failed. -/
structure RunState where
  fs : FS
  seedWarnings : List (List String)
  parseWarned : Bool
  invoked : Option JObj
  outputs : List (String × String)
  failed : Option String

/-- The message `core.setFailed` receives when the required `github-token`
input is absent: `getInput(..., {required: true})` throws and the top-level
catch prepends "Release failed: ". -/
def missingTokenMessage : String :=
  "Release failed: Input required and not supplied: github-token"

/-- The parsed override (`src/index.js` lines 116-124): an empty input skips
parsing; a parse failure logs a warning (second component) and leaves the
override empty. -/
def parsedOverride (env : RunEnv) : JObj × Bool :=
  if env.configInput = "" then ([], false)
  else
    match env.parseJson env.configInput with
    | Except.ok v => (jobjOf v, false)
    | Except.error _ => ([], true)

/-- The configuration object `run` passes to the release library. -/
def effectiveConfig (env : RunEnv) : JObj :=
  releaseItConfig env.githubToken (env.dryRunInput = "true")
    (renderPath (ensureConfigFile env.orc env.seeder env.fs0).primary)
    (parsedOverride env).1

/-- `run` (`src/index.js` lines 101-175): seed the configuration files, check
the required token (its absence throws, caught by the top-level handler),
parse the override, build the effective configuration, invoke the release
library, and map its result onto outputs or a failure message. -/
def run (env : RunEnv) : RunState :=
  let seeded := ensureConfigFile env.orc env.seeder env.fs0
  if env.githubToken = "" then
    { fs := seeded.fs, seedWarnings := seeded.warned, parseWarned := false,
      invoked := none, outputs := [], failed := some missingTokenMessage }
  else
    let cfg := effectiveConfig env
    match env.releaseIt cfg with
    | Except.ok result =>
      { fs := seeded.fs, seedWarnings := seeded.warned,
        parseWarned := (parsedOverride env).2, invoked := some cfg,
        outputs := outputsOf result, failed := none }
    | Except.error m =>
      { fs := seeded.fs, seedWarnings := seeded.warned,
        parseWarned := (parsedOverride env).2, invoked := some cfg,
        outputs := [], failed := some ("Release failed: " ++ m) }

/-- An error-free filesystem oracle. -/
def noFailOracle : FsOracle :=
  { mkdirFails := fun _ => false, writeFails := fun _ => false }

/-- A seeder environment with no `HOME` and no `GITHUB_ACTION_PATH`. -/
def plainSeederEnv : SeederEnv :=
  { home := none, githubActionPath := none, cwd := ["repo"] }

/-- A filesystem holding only the working directory. -/
def emptyRepoFs : FS :=
  { files := [], dirs := [["repo"]] }

/-- A run whose required `github-token` input is absent. -/
def exEnvNoToken : RunEnv :=
  { seeder := plainSeederEnv, orc := noFailOracle, fs0 := emptyRepoFs,
    githubToken := "", configInput := "", dryRunInput := "",
    parseJson := fun _ => Except.error "unused",
    releaseIt := fun _ => Except.error "unused" }

/-- The override object parsed from the input string
`{"git": {"push": false}}`. -/
def overrideGitPushFalse : JObj :=
  [("git", JValue.obj [("push", JValue.bool false)])]

/-- A run given a config input that is not valid JSON. -/
def exEnvBadJson : RunEnv :=
  { seeder := plainSeederEnv, orc := noFailOracle, fs0 := emptyRepoFs,
    githubToken := "token", configInput := "not json", dryRunInput := "",
    parseJson := fun _ => Except.error "Unexpected token o in JSON at position 0",
    releaseIt := fun _ => Except.ok none }

/-- The library result of the spec's worked example: a version and a changelog
but no `latestVersion` field. -/
def exResultRelease : ReleaseResult :=
  { version := some "1.2.0", latestVersion := none, changelog := some "notes" }

/-- A run whose library invocation resolves with `exResultRelease`. -/
def exEnvRelease : RunEnv :=
  { seeder := plainSeederEnv, orc := noFailOracle, fs0 := emptyRepoFs,
    githubToken := "token", configInput := "", dryRunInput := "",
    parseJson := fun _ => Except.error "unused",
    releaseIt := fun _ => Except.ok (some exResultRelease) }

/-- A run whose library result carries a `version` field that is present but
an empty string. -/
def exEnvEmptyVersion : RunEnv :=
  { seeder := plainSeederEnv, orc := noFailOracle, fs0 := emptyRepoFs,
    githubToken := "token", configInput := "", dryRunInput := "",
    parseJson := fun _ => Except.error "unused",
    releaseIt := fun _ =>
      Except.ok (some { version := some "", latestVersion := none, changelog := none }) }

/-- A run whose library invocation rejects with "tag already exists". -/
def exEnvTagExists : RunEnv :=
  { seeder := plainSeederEnv, orc := noFailOracle, fs0 := emptyRepoFs,
    githubToken := "token", configInput := "", dryRunInput := "",
    parseJson := fun _ => Except.error "unused",
    releaseIt := fun _ => Except.error "tag already exists" }

/-- A filesystem containing an action cache
`home/work/_actions/o/r/v1` (one owner, one repo, one version). -/
def exFsTree : FS :=
  { files := [],
    dirs := [["home"], ["home", "work"], ["home", "work", "_actions"],
             ["home", "work", "_actions", "o"],
             ["home", "work", "_actions", "o", "r"],
             ["home", "work", "_actions", "o", "r", "v1"]] }

/-- A seeder environment whose working directory coincides with the discovered
version directory and which also has `GITHUB_ACTION_PATH` set elsewhere. -/
def exSeederEnv : SeederEnv :=
  { home := some ["home"], githubActionPath := some ["gap"],
    cwd := ["home", "work", "_actions", "o", "r", "v1"] }

/-- A filesystem already holding a configuration file with custom contents. -/
def exSeededFs : FS :=
  { files := [(["repo", "config", "release-it.json"], "custom contents")],
    dirs := [["repo"], ["repo", "config"]] }

/-- An oracle under which creating the directory `locked/config` throws. -/
def exFailOracle : FsOracle :=
  { mkdirFails := fun d => d == ["locked", "config"],
    writeFails := fun _ => false }

/-- Two candidates: the first under the failing directory, the second sound. -/
def exTwoCandidates : List (List String) :=
  [["locked", "config", "release-it.json"], ["repo", "config", "release-it.json"]]

theorem JObj.get_append_single (l : JObj) (k k' : String) (v : JValue) :
    JObj.get (l ++ [(k, v)]) k' = if k = k' then some v else JObj.get l k' := by
  induction l with
  | nil => rfl
  | cons kv rest ih =>
    simp only [List.cons_append, List.append_eq, JObj.get]
    rw [ih]
    by_cases h : k = k' <;> simp [h]

theorem JObj.get_filter_ne (l : JObj) (k k' : String) (h : k ≠ k') :
    JObj.get (l.filter (fun kv => kv.1 != k)) k' = JObj.get l k' := by
  induction l with
  | nil => rfl
  | cons kv rest ih =>
    by_cases hk : kv.1 = k
    · have hk' : kv.1 ≠ k' := by simpa [hk] using h
      rw [List.filter_cons]
      simp only [hk, bne_self_eq_false, if_neg Bool.false_ne_true, ih]
      cases hrest : JObj.get rest k' <;> simp [JObj.get, hrest, hk']
    · rw [List.filter_cons]
      simp only [bne_iff_ne, ne_eq, hk, not_false_eq_true, if_pos]
      cases hrest : JObj.get rest k' <;>
        simp [JObj.get, hrest, ih]

theorem JObj.get_set (o : JObj) (k k' : String) (v : JValue) :
    JObj.get (JObj.set o k v) k' = if k = k' then some v else JObj.get o k' := by
  unfold JObj.set
  rw [JObj.get_append_single]
  by_cases h : k = k'
  · simp [h]
  · simp [h, JObj.get_filter_ne _ _ _ h]

theorem get_spread (o base : JObj) (k : String) :
    JObj.get (spread base o) k =
      match JObj.get o k with
      | some v => some v
      | none => JObj.get base k := by
  induction o generalizing base with
  | nil => rfl
  | cons kv rest ih =>
    show JObj.get (spread (JObj.set base kv.1 kv.2) rest) k = _
    rw [ih]
    cases hrest : JObj.get rest k with
    | some v => simp [JObj.get, hrest]
    | none =>
      simp only [JObj.get, hrest, JObj.get_set]
      by_cases h : kv.1 = k <;> simp [h]

theorem FS.read_mkdirp (fs : FS) (d p : List String) :
    (fs.mkdirp d).read p = fs.read p := rfl

theorem FS.read_none_of_not_exists {fs : FS} {p : List String}
    (h : fs.existsSync p = false) : fs.read p = none := by
  have h1 : ∀ e ∈ fs.files, ¬ (e.1 == p) = true := by
    intro e he hep
    have hany : fs.files.any (fun e => e.1 == p) = true :=
      List.any_eq_true.mpr ⟨e, he, hep⟩
    simp [FS.existsSync, hany] at h
  simp [FS.read, List.find?_eq_none.mpr h1]

theorem find_key_filter_ne {q p : List String} (h : q ≠ p)
    (l : List (List String × String)) :
    (l.filter (fun e => e.1 != p)).find? (fun e => e.1 == q) =
      l.find? (fun e => e.1 == q) := by
  induction l with
  | nil => rfl
  | cons e l ih =>
    rw [List.filter_cons]
    by_cases hp : e.1 = p
    · have hq : (e.1 == q) = false := by
        rw [hp]
        simp only [beq_eq_false_iff_ne, ne_eq]
        exact fun hh => h hh.symm
      have hpe : (e.1 != p) = false := by simp [hp]
      rw [hpe]
      simp only [Bool.false_eq_true, if_false, ih]
      simp [List.find?_cons, hq]
    · have hpe : (e.1 != p) = true := by simp [hp]
      rw [hpe]
      simp only [if_true, List.find?_cons]
      cases hq : (e.1 == q) <;> simp [hq, ih]

theorem FS.read_writeFile_ne {q p : List String} (h : q ≠ p) (fs : FS) (c : String) :
    (fs.writeFile p c).read q = fs.read q := by
  simp only [FS.writeFile, FS.read]
  rw [List.find?_append, find_key_filter_ne h]
  have hpq : ((p, c).1 == q) = false := by
    simp only [beq_eq_false_iff_ne, ne_eq]
    exact fun hh => h hh.symm
  simp [List.find?_cons, hpq]

theorem FS.exists_writeFile_self (fs : FS) (p : List String) (c : String) :
    (fs.writeFile p c).existsSync p = true := by
  simp [FS.writeFile, FS.existsSync, List.any_append]

theorem FS.exists_writeFile_mono {fs : FS} {q : List String}
    (h : fs.existsSync q = true) (p : List String) (c : String) :
    (fs.writeFile p c).existsSync q = true := by
  simp only [FS.existsSync, Bool.or_eq_true, List.any_eq_true] at h ⊢
  rcases h with ⟨e, he, hq⟩ | hd
  · by_cases hp : e.1 = p
    · left
      refine ⟨(p, c), ?_, ?_⟩
      · simp [FS.writeFile]
      · have : q = p := by rw [← hp]; exact (beq_iff_eq.mp hq).symm
        simp [this]
    · left
      refine ⟨e, ?_, hq⟩
      simp [FS.writeFile, List.mem_filter, he, hp]
  · right
    simpa [FS.writeFile] using hd

theorem FS.exists_mkdirp_mono {fs : FS} {q : List String}
    (h : fs.existsSync q = true) (d : List String) :
    (fs.mkdirp d).existsSync q = true := by
  simp only [FS.existsSync, FS.mkdirp, Bool.or_eq_true, List.any_eq_true] at h ⊢
  rcases h with hf | ⟨x, hx, hq⟩
  · exact Or.inl hf
  · exact Or.inr ⟨x, List.mem_append_left _ hx, hq⟩

theorem ensureOne_read {orc : FsOracle} {fs : FS} {q : List String} {c : String}
    (cf : List String) (h : fs.read q = some c) :
    (ensureOne orc fs cf).1.read q = some c := by
  unfold ensureOne
  by_cases hd : fs.existsSync cf.dropLast
  · simp only [hd, if_true]
    by_cases hf : fs.existsSync cf
    · simpa [hf] using h
    · have hqcf : q ≠ cf := by
        intro hqq
        rw [hqq, FS.read_none_of_not_exists (by simpa using hf)] at h
        cases h
      by_cases hw : orc.writeFails cf <;>
        simp [hf, hw, FS.read_writeFile_ne hqcf, h]
  · simp only [hd, if_false, Bool.false_eq_true]
    by_cases hm : orc.mkdirFails cf.dropLast
    · simpa [hm] using h
    · have hread1 : (fs.mkdirp cf.dropLast).read q = some c := by
        rw [FS.read_mkdirp]; exact h
      by_cases hf : (fs.mkdirp cf.dropLast).existsSync cf
      · simpa [hm, hf] using hread1
      · have hqcf : q ≠ cf := by
          intro hqq
          rw [hqq] at hread1
          rw [FS.read_none_of_not_exists (by simpa using hf)] at hread1
          cases hread1
        by_cases hw : orc.writeFails cf <;>
          simp [hm, hf, hw, FS.read_writeFile_ne hqcf, hread1]

theorem ensureOne_exists_mono {orc : FsOracle} {fs : FS} {q : List String}
    (cf : List String) (h : fs.existsSync q = true) :
    (ensureOne orc fs cf).1.existsSync q = true := by
  unfold ensureOne
  by_cases hd : fs.existsSync cf.dropLast
  · by_cases hf : fs.existsSync cf
    · simpa [hd, hf] using h
    · by_cases hw : orc.writeFails cf <;>
        simp [hd, hf, hw, h, FS.exists_writeFile_mono h]
  · by_cases hm : orc.mkdirFails cf.dropLast
    · simpa [hd, hm] using h
    · have h1 : (fs.mkdirp cf.dropLast).existsSync q = true :=
        FS.exists_mkdirp_mono h _
      by_cases hf : (fs.mkdirp cf.dropLast).existsSync cf
      · simpa [hd, hm, hf] using h1
      · by_cases hw : orc.writeFails cf <;>
          simp [hd, hm, hf, hw, h1, FS.exists_writeFile_mono h1]

theorem ensureOne_exists_self {orc : FsOracle} (fs : FS) (cf : List String)
    (h1 : orc.mkdirFails cf.dropLast = false) (h2 : orc.writeFails cf = false) :
    (ensureOne orc fs cf).1.existsSync cf = true := by
  unfold ensureOne
  by_cases hd : fs.existsSync cf.dropLast
  · by_cases hf : fs.existsSync cf
    · simp [hd, hf]
    · simp [hd, hf, h2, FS.exists_writeFile_self]
  · by_cases hf : (fs.mkdirp cf.dropLast).existsSync cf
    · simp [hd, h1, hf]
    · simp [hd, h1, hf, h2, FS.exists_writeFile_self]

theorem ensureOne_warned {orc : FsOracle} {fs : FS} {cf : List String}
    (h : (ensureOne orc fs cf).2 = true) :
    orc.mkdirFails cf.dropLast = true ∨ orc.writeFails cf = true := by
  unfold ensureOne at h
  by_cases hd : fs.existsSync cf.dropLast
  · by_cases hf : fs.existsSync cf
    · simp [hd, hf] at h
    · by_cases hw : orc.writeFails cf
      · exact Or.inr hw
      · simp [hd, hf, hw] at h
  · by_cases hm : orc.mkdirFails cf.dropLast
    · exact Or.inl hm
    · by_cases hf : (fs.mkdirp cf.dropLast).existsSync cf
      · simp [hd, hm, hf] at h
      · by_cases hw : orc.writeFails cf
        · exact Or.inr hw
        · simp [hd, hm, hf, hw] at h

theorem seedAll_read {orc : FsOracle} {q : List String} {c : String}
    (fs : FS) (paths : List (List String)) (h : fs.read q = some c) :
    (seedAll orc fs paths).1.read q = some c := by
  induction paths generalizing fs with
  | nil => exact h
  | cons cf rest ih =>
    simp only [seedAll]
    exact ih _ (ensureOne_read cf h)

theorem seedAll_exists_mono {orc : FsOracle} {q : List String}
    (fs : FS) (paths : List (List String)) (h : fs.existsSync q = true) :
    (seedAll orc fs paths).1.existsSync q = true := by
  induction paths generalizing fs with
  | nil => exact h
  | cons cf rest ih =>
    simp only [seedAll]
    exact ih _ (ensureOne_exists_mono cf h)

theorem seedAll_exists_of_mem {orc : FsOracle} {p : List String}
    (fs : FS) (paths : List (List String)) (hp : p ∈ paths)
    (h1 : orc.mkdirFails p.dropLast = false) (h2 : orc.writeFails p = false) :
    (seedAll orc fs paths).1.existsSync p = true := by
  induction paths generalizing fs with
  | nil => cases hp
  | cons cf rest ih =>
    simp only [seedAll]
    rcases List.mem_cons.mp hp with rfl | hmem
    · exact seedAll_exists_mono _ rest (ensureOne_exists_self fs p h1 h2)
    · exact ih _ hmem

theorem seedAll_warned {orc : FsOracle} (fs : FS) (paths : List (List String)) :
    ∀ p ∈ (seedAll orc fs paths).2,
      p ∈ paths ∧ (orc.mkdirFails p.dropLast = true ∨ orc.writeFails p = true) := by
  induction paths generalizing fs with
  | nil => simp [seedAll]
  | cons cf rest ih =>
    intro p hp
    simp only [seedAll] at hp
    rw [List.mem_append] at hp
    rcases hp with hh | hh
    · by_cases hw : (ensureOne orc fs cf).2
      · rw [if_pos hw] at hh
        rcases List.mem_singleton.mp hh with rfl
        exact ⟨List.mem_cons_self _ _, ensureOne_warned hw⟩
      · rw [if_neg hw] at hh
        cases hh
    · rcases ih _ p hh with ⟨hmem, horc⟩
      exact ⟨List.mem_cons_of_mem _ hmem, horc⟩

/-- Claim C1, counterexample.  With the override `{"git": {"push": false}}`
the claim asserts `git.commitMessage` retains its default
"chore: release v${version}"; in fact the final `...config` spread replaces
the whole `git` section with the override's `git` object, so `git.push` is
`false` as claimed but `commitMessage` is absent from the effective
configuration. -/
theorem c1_counterexample :
    getBool (getSection (releaseItConfig "token" false "cfg" overrideGitPushFalse) "git")
        "push" = some false ∧
    getStr (getSection (releaseItConfig "token" false "cfg" overrideGitPushFalse) "git")
        "commitMessage" ≠ some "chore: release v${version}" := by
  decide

/-- Claim C1, amended: for every run given the override
`{"git": {"push": false}}`, the effective configuration's `git` section is
exactly the override's `git` object (so `git.push` is `false` but
`git.commitMessage` is absent rather than at its default), while the `npm`
and `github` sections remain at their defaults. -/
theorem c1_amended (githubToken : String) (dryRun : Bool) (configFilePath : String) :
    getBool (getSection (releaseItConfig githubToken dryRun configFilePath
        overrideGitPushFalse) "git") "push" = some false ∧
    getSection (releaseItConfig githubToken dryRun configFilePath
        overrideGitPushFalse) "git" = [("push", JValue.bool false)] ∧
    getStr (getSection (releaseItConfig githubToken dryRun configFilePath
        overrideGitPushFalse) "git") "commitMessage" = none ∧
    getSection (releaseItConfig githubToken dryRun configFilePath
        overrideGitPushFalse) "npm" = npmDefaults ∧
    getSection (releaseItConfig githubToken dryRun configFilePath
        overrideGitPushFalse) "github" = githubDefaults githubToken :=
  ⟨rfl, rfl, rfl, rfl, rfl⟩

/-- Claim C2, counterexample.  The claim asserts that with the required
`github-token` input absent no seeder filesystem write occurs before the
failure; in fact `run` calls `ensureConfigFile` before reading the token, so
the default payload is written to `<cwd>/config/release-it.json` even though
the run is marked failed. -/
theorem c2_counterexample :
    (run exEnvNoToken).failed = some missingTokenMessage ∧
    exEnvNoToken.fs0.read ["repo", "config", "release-it.json"] = none ∧
    (run exEnvNoToken).fs.read ["repo", "config", "release-it.json"] =
      some defaultConfigPayload := by
  decide

/-- Claim C2, amended: for every run in which the required `github-token`
input is absent, the run is marked failed with the required-input message,
the release library is never invoked and no output is set; however the
seeder has already run, so the final filesystem is the seeded one (its
writes occur before the failure). -/
theorem c2_amended (env : RunEnv) (h : env.githubToken = "") :
    (run env).failed = some missingTokenMessage ∧
    (run env).invoked = none ∧
    (run env).outputs = [] ∧
    (run env).fs = (ensureConfigFile env.orc env.seeder env.fs0).fs := by
  simp [run, h]

/-- Witness for the amended claim C2 at a concrete environment. -/
theorem c2_witness :
    (run exEnvNoToken).failed = some missingTokenMessage ∧
    (run exEnvNoToken).invoked = none ∧
    (run exEnvNoToken).outputs = [] ∧
    (run exEnvNoToken).fs =
      (ensureConfigFile exEnvNoToken.orc exEnvNoToken.seeder exEnvNoToken.fs0).fs :=
  c2_amended exEnvNoToken rfl

/-- Claim C3: after the named default sections are built, the parsed override
is spread once more as a final whole-object overlay, so every top-level key
of the override appears in the effective configuration with the override's
value. -/
theorem c3_final_overlay (githubToken : String) (dryRun : Bool) (configFilePath : String)
    (config : JObj) (k : String) (v : JValue)
    (h : JObj.get config k = some v) :
    JObj.get (releaseItConfig githubToken dryRun configFilePath config) k = some v := by
  unfold releaseItConfig
  rw [get_spread, h]

/-- Witness for claim C3: a top-level override key not anticipated by name
(`preReleaseId`) appears in the effective configuration. -/
theorem c3_witness :
    JObj.get (releaseItConfig "t" false "p" [("preReleaseId", JValue.str "beta")])
      "preReleaseId" = some (JValue.str "beta") :=
  c3_final_overlay "t" false "p" _ "preReleaseId" _ rfl

/-- Claim C4: for every config override input that fails to parse as JSON,
the run warns, substitutes the empty override, and still builds the
effective configuration and invokes the release library; it does not fail
because of the malformation (the failure outcome is determined solely by the
library invocation). -/
theorem c4_invalid_json (env : RunEnv) (m : String)
    (htok : env.githubToken ≠ "")
    (hcfg : env.configInput ≠ "")
    (hparse : env.parseJson env.configInput = Except.error m) :
    (run env).parseWarned = true ∧
    (run env).invoked =
      some (releaseItConfig env.githubToken (env.dryRunInput = "true")
        (renderPath (ensureConfigFile env.orc env.seeder env.fs0).primary) []) ∧
    (∀ r, env.releaseIt (effectiveConfig env) = Except.ok r → (run env).failed = none) := by
  have hov : parsedOverride env = ([], true) := by
    simp [parsedOverride, hcfg, hparse]
  have hcfg2 : effectiveConfig env =
      releaseItConfig env.githubToken (env.dryRunInput = "true")
        (renderPath (ensureConfigFile env.orc env.seeder env.fs0).primary) [] := by
    simp [effectiveConfig, hov]
  refine ⟨?_, ?_, ?_⟩
  · cases hrel : env.releaseIt (effectiveConfig env) <;>
      simp [run, htok, hrel, hov]
  · have hi : (run env).invoked = some (effectiveConfig env) := by
      cases hrel : env.releaseIt (effectiveConfig env) <;> simp [run, htok, hrel]
    rw [hi, hcfg2]
  · intro r hr
    simp [run, htok, hr]

/-- Witness for claim C4 at a concrete run with an unparseable override. -/
theorem c4_witness :
    (run exEnvBadJson).parseWarned = true ∧ (run exEnvBadJson).failed = none := by
  have h := c4_invalid_json exEnvBadJson "Unexpected token o in JSON at position 0"
    (by decide) (by decide) rfl
  exact ⟨h.1, h.2.2 none rfl⟩

theorem lookup_outputsOf_version (r : ReleaseResult) :
    ((outputsOf (some r)).lookup "version") = truthy r.version := by
  cases hv : truthy r.version <;> cases hl : truthy r.latestVersion <;>
    cases hc : truthy r.changelog <;> simp [outputsOf, hv, hl, hc, List.lookup]

theorem lookup_outputsOf_latest (r : ReleaseResult) :
    ((outputsOf (some r)).lookup "latestVersion") = truthy r.latestVersion := by
  cases hv : truthy r.version <;> cases hl : truthy r.latestVersion <;>
    cases hc : truthy r.changelog <;> simp [outputsOf, hv, hl, hc, List.lookup]

theorem lookup_outputsOf_changelog (r : ReleaseResult) :
    ((outputsOf (some r)).lookup "changelog") = truthy r.changelog := by
  cases hv : truthy r.version <;> cases hl : truthy r.latestVersion <;>
    cases hc : truthy r.changelog <;> simp [outputsOf, hv, hl, hc, List.lookup]

/-- Claim C5, counterexample.  The claim asserts every field present in the
result is copied to the output of the same name; here the library result
carries a present `version` field whose value is the empty string, the run
succeeds, and yet no output at all is set, because the code tests JavaScript
truthiness (`if (result.version)`) rather than presence. -/
theorem c5_counterexample :
    exEnvEmptyVersion.releaseIt (effectiveConfig exEnvEmptyVersion) =
      Except.ok (some { version := some "", latestVersion := none, changelog := none }) ∧
    (run exEnvEmptyVersion).failed = none ∧
    (run exEnvEmptyVersion).outputs = [] :=
  ⟨rfl, rfl, rfl⟩

/-- Claim C5, amended: for every result object the library resolves with,
each of the fields `version`, `latestVersion`, `changelog` that is present
and truthy (a nonempty string) is copied unchanged to the output of the same
name; a field that is absent or an empty string leaves its output unset, and
the run is not marked failed. -/
theorem c5_amended (env : RunEnv) (cfg : JObj) (r : ReleaseResult)
    (hinv : (run env).invoked = some cfg)
    (hres : env.releaseIt cfg = Except.ok (some r)) :
    (run env).failed = none ∧
    ((run env).outputs.lookup "version") = truthy r.version ∧
    ((run env).outputs.lookup "latestVersion") = truthy r.latestVersion ∧
    ((run env).outputs.lookup "changelog") = truthy r.changelog := by
  by_cases htok : env.githubToken = ""
  · simp [run, htok] at hinv
  · have hcfg : cfg = effectiveConfig env := by
      cases hrel : env.releaseIt (effectiveConfig env) <;>
        · simp [run, htok, hrel] at hinv
          exact hinv.symm
    rw [hcfg] at hres
    simp [run, htok, hres]
    exact ⟨lookup_outputsOf_version r, lookup_outputsOf_latest r,
      lookup_outputsOf_changelog r⟩

/-- Witness for the amended claim C5 at the spec's worked example: result
`{version: "1.2.0", changelog: "notes"}` with no `latestVersion` field. -/
theorem c5_witness :
    (run exEnvRelease).failed = none ∧
    ((run exEnvRelease).outputs.lookup "version") = some "1.2.0" ∧
    ((run exEnvRelease).outputs.lookup "latestVersion") = none ∧
    ((run exEnvRelease).outputs.lookup "changelog") = some "notes" := by
  have h := c5_amended exEnvRelease (effectiveConfig exEnvRelease) exResultRelease rfl rfl
  exact ⟨h.1, h.2.1, h.2.2.1, h.2.2.2⟩

/-- Claim C6: when the release library invocation rejects with message `m`,
the run is marked failed with the message "Release failed: " ++ m (which
contains `m`), and no output is set. -/
theorem c6_release_rejection (env : RunEnv) (cfg : JObj) (m : String)
    (hinv : (run env).invoked = some cfg)
    (hres : env.releaseIt cfg = Except.error m) :
    (run env).failed = some ("Release failed: " ++ m) ∧
    (run env).outputs = [] := by
  by_cases htok : env.githubToken = ""
  · simp [run, htok] at hinv
  · have hcfg : cfg = effectiveConfig env := by
      cases hrel : env.releaseIt (effectiveConfig env) <;>
        · simp [run, htok, hrel] at hinv
          exact hinv.symm
    rw [hcfg] at hres
    simp [run, htok, hres]

/-- Witness for claim C6 at a rejection with message "tag already exists". -/
theorem c6_witness :
    (run exEnvTagExists).failed = some "Release failed: tag already exists" ∧
    (run exEnvTagExists).outputs = [] :=
  c6_release_rejection exEnvTagExists (effectiveConfig exEnvTagExists)
    "tag already exists" rfl rfl

/-- Claim C7: the seeder never overwrites an existing file, so any file
already present keeps its contents through one seeding pass, and in
particular through a second invocation of the seeder (write once, read after
each of two invocations, identical content). -/
theorem c7_seeder_idempotent (orc : FsOracle) (fs : FS) (paths : List (List String))
    (p : List String) (c : String) (h : fs.read p = some c) :
    (seedAll orc fs paths).1.read p = some c ∧
    (seedAll orc (seedAll orc fs paths).1 paths).1.read p = some c := by
  have h1 := @seedAll_read orc p c fs paths h
  exact ⟨h1, @seedAll_read orc p c _ paths h1⟩

/-- Witness for claim C7: a pre-existing configuration file with custom
contents survives two seeding passes unchanged. -/
theorem c7_witness :
    (seedAll noFailOracle exSeededFs [["repo", "config", "release-it.json"]]).1.read
      ["repo", "config", "release-it.json"] = some "custom contents" ∧
    (seedAll noFailOracle
        (seedAll noFailOracle exSeededFs [["repo", "config", "release-it.json"]]).1
        [["repo", "config", "release-it.json"]]).1.read
      ["repo", "config", "release-it.json"] = some "custom contents" :=
  c7_seeder_idempotent noFailOracle exSeededFs
    [["repo", "config", "release-it.json"]]
    ["repo", "config", "release-it.json"] "custom contents" rfl

/-- Claim C8: a filesystem error on one candidate is caught and logged as a
warning and does not abort the loop: every candidate whose own mkdir/write
operations do not error ends up existing after the pass (even when other
candidates error), and every warned candidate is one of the candidates and
genuinely suffered a mkdir or write error. -/
theorem c8_error_isolation (orc : FsOracle) (fs : FS) (paths : List (List String)) :
    (∀ p, p ∈ paths → orc.mkdirFails p.dropLast = false →
      orc.writeFails p = false → (seedAll orc fs paths).1.existsSync p = true) ∧
    (∀ p, p ∈ (seedAll orc fs paths).2 →
      p ∈ paths ∧ (orc.mkdirFails p.dropLast = true ∨ orc.writeFails p = true)) :=
  ⟨fun _ hp h1 h2 => seedAll_exists_of_mem fs paths hp h1 h2,
   fun p hp => seedAll_warned fs paths p hp⟩

/-- Witness for claim C8: with the first candidate's directory creation
throwing, the second candidate is still seeded, and the warned candidate is
the genuinely failing one. -/
theorem c8_witness :
    (seedAll exFailOracle emptyRepoFs exTwoCandidates).1.existsSync
      ["repo", "config", "release-it.json"] = true ∧
    (["locked", "config", "release-it.json"] ∈ exTwoCandidates ∧
      (exFailOracle.mkdirFails ["locked", "config", "release-it.json"].dropLast = true ∨
        exFailOracle.writeFails ["locked", "config", "release-it.json"] = true)) :=
  ⟨(c8_error_isolation exFailOracle emptyRepoFs exTwoCandidates).1
      ["repo", "config", "release-it.json"] (by decide) rfl rfl,
   (c8_error_isolation exFailOracle emptyRepoFs exTwoCandidates).2
      ["locked", "config", "release-it.json"] (by decide)⟩

/-- Claim C9, counterexample.  The claim asserts `<cwd>/config/release-it.json`
is always the last-added candidate; here the working directory coincides with
a discovered action-cache version directory, so its config path enters the
list via method 1, the `GITHUB_ACTION_PATH` candidate is appended after it,
and the dedup check of method 3 then skips re-adding it: the cwd path is in
the list but not last. -/
theorem c9_counterexample :
    (candidatePaths exFsTree exSeederEnv).getLast? ≠
      some (exSeederEnv.cwd ++ ["config", "release-it.json"]) ∧
    (exSeederEnv.cwd ++ ["config", "release-it.json"]) ∈
      candidatePaths exFsTree exSeederEnv := by
  decide

/-- Claim C9, amended: for every environment and filesystem the candidate
list is non-empty, always contains `<cwd>/config/release-it.json` (though not
necessarily as the last-added candidate), and the seeder returns the first
element of the list as the primary path. -/
theorem c9_amended (orc : FsOracle) (env : SeederEnv) (fs : FS) :
    candidatePaths fs env ≠ [] ∧
    (env.cwd ++ ["config", "release-it.json"]) ∈ candidatePaths fs env ∧
    (candidatePaths fs env).head? = some (ensureConfigFile orc env fs).primary := by
  have hmem : (env.cwd ++ ["config", "release-it.json"]) ∈ candidatePaths fs env := by
    unfold candidatePaths
    by_cases hc : (env.cwd ++ ["config", "release-it.json"]) ∈ candidatesBeforeCwd fs env
    · simp [hc]
    · simp [hc]
  have hne : candidatePaths fs env ≠ [] := List.ne_nil_of_mem hmem
  refine ⟨hne, hmem, ?_⟩
  cases hl : candidatePaths fs env with
  | nil => exact absurd hl hne
  | cons a l => simp [ensureConfigFile, hl]

/-- Claim C10: when the parsed override has a top-level `github` key holding
an object, the final whole-object overlay replaces the entire `github`
section with the override's object, so the token injected from the
`github-token` input survives only if the override's own `github` object
carries a `token` key. -/
theorem c10_github_overlay (githubToken : String) (dryRun : Bool) (configFilePath : String)
    (config : JObj) (g : JObj)
    (h : JObj.get config "github" = some (JValue.obj g)) :
    getSection (releaseItConfig githubToken dryRun configFilePath config) "github" = g ∧
    (JObj.get g "token" = none →
      JObj.get (getSection (releaseItConfig githubToken dryRun configFilePath config)
        "github") "token" = none) := by
  have h1 : JObj.get (releaseItConfig githubToken dryRun configFilePath config) "github" =
      some (JValue.obj g) := by
    unfold releaseItConfig
    rw [get_spread, h]
  constructor
  · simp [getSection, h1]
  · intro ht
    simp [getSection, h1, ht]

/-- Witness for claim C10: an override `{"github": {"release": true}}` yields
an effective `github` section equal to that object, with no token. -/
theorem c10_witness :
    getSection (releaseItConfig "tok" false "p"
      [("github", JValue.obj [("release", JValue.bool true)])]) "github" =
      [("release", JValue.bool true)] ∧
    JObj.get (getSection (releaseItConfig "tok" false "p"
      [("github", JValue.obj [("release", JValue.bool true)])]) "github") "token" = none := by
  have h := c10_github_overlay "tok" false "p"
    [("github", JValue.obj [("release", JValue.bool true)])]
    [("release", JValue.bool true)] rfl
  exact ⟨h.1, h.2 rfl⟩

end ReleaseItAction
